import Mathlib

/-!
Verification of the webhook change-detection and delivery engine of the
sunsama-http-api-server repository.

The TypeScript source is shallowly embedded:

* `src/server/webhook/types.ts` — data model (`StoredTaskState`,
  `UserTasksState`, `WebhookPayload`, `WebhookConfig`,
  `WebhookDeliveryResult`).
* `src/server/webhook/watcher.ts` — `hashTaskState`, `taskToStoredState`,
  `detectChanges`, `getThisWeekMonday`, `getWeekDays`, `getDaysForScope`,
  `pollForUser`.
* `src/server/webhook/dispatcher.ts` — `dispatchWebhook`,
  `createWebhookPayload`.
* `src/server/redis/client.ts` — `markApiChange`, `checkApiChange`
  (self-origin markers, keyed per subscriber by task id).
* `src/server/routes/tasks.ts` — the task mutation route handlers,
  abstracted as effect lists.

Modelling conventions:

* JavaScript objects / `Map`s keyed by strings are association lists
  (`List (String × α)`) with insertion-order semantics: setting an existing
  key replaces its value in place, setting a fresh key appends.
* The MD5 hex digest produced by `hashTaskState` is modelled as the record
  of hashed fields itself (`Fingerprint`): the digest is a deterministic
  function of exactly those fields, and the program only ever compares
  digests for equality.
* The wall clock (`new Date().toISOString()`) is an injected `now : String`;
  calendar dates are day numbers (`Int`, days since the epoch,
  1970-01-01 being a Thursday), so `Date.prototype.getDay` becomes
  `(d + 4) % 7`.
* `await`ed external effects are explicit inputs/outputs: the Redis read of
  the stored state is a `StoreRead` input, the self-origin marker store is
  threaded through as an association list, and dispatching a webhook
  records the payload in an output list.
* JavaScript `x || y` coercions on possibly-empty strings and numbers are
  `jsOrStr` / `jsOrInt` (empty string and `0` are falsy).
-/

namespace Sunsama

/-- Webhook event types (`WebhookEventType` in `types.ts`). -/
inductive WebhookEventType where
  | created
  | completed
  | uncompleted
  | deleted
  | updated
  | scheduled
deriving DecidableEq, Repr

/-- A JSON field value appearing in a change map: a string, a number, or
`null`. -/
inductive FieldVal where
  | str : String → FieldVal
  | num : Int → FieldVal
  | null : FieldVal
deriving DecidableEq, Repr

/-- `FieldChange` from `types.ts`: an `{old, new}` pair. -/
structure FieldChange where
  old : FieldVal
  new : FieldVal
deriving DecidableEq, Repr

/-- `task.snooze` sub-object: the schedule date (`snooze.until` in the
source; `until` is a Lean keyword, hence `untilDate`). -/
structure Snooze where
  untilDate : Option String
deriving DecidableEq, Repr

/-- `task.timeHorizon` sub-object: backlog-bucket classification. -/
structure TimeHorizon where
  type : String
  relativeTo : Option String
deriving DecidableEq, Repr

/-- The raw task shape consumed by the watcher (the fields of the external
`Task` type that `hashTaskState` and `taskToStoredState` read). -/
structure Task where
  _id : String
  text : String
  completed : Bool
  completeDate : Option String
  snooze : Option Snooze
  dueDate : Option String
  timeEstimate : Option Int
  notes : Option String
  streamIds : List String
  timeHorizon : Option TimeHorizon
deriving DecidableEq, Repr

/-- JavaScript `s || null` on an optional string: `undefined`, `null` and the
empty string all coerce to `null`. -/
def jsOrStr (o : Option String) : Option String :=
  match o with
  | some s => if s = "" then none else some s
  | none => none

/-- JavaScript `n || null` on an optional number: `undefined`, `null` and `0`
all coerce to `null`. -/
def jsOrInt (o : Option Int) : Option Int :=
  match o with
  | some n => if n = 0 then none else some n
  | none => none

/-- The canonical structure serialized and digested by `hashTaskState`
(watcher.ts): the MD5 hex string is modelled by the field record itself,
since the digest is a deterministic function of exactly these fields and is
only compared for equality. -/
structure Fingerprint where
  text : String
  completed : Bool
  completeDate : Option String
  snoozeUntil : Option String
  dueDate : Option String
  timeEstimate : Option Int
  notes : Option String
  streamIds : List String
  timeHorizonType : Option String
  timeHorizonRelativeTo : Option String
deriving DecidableEq, Repr

/-- `hashTaskState` (watcher.ts): the fingerprint over the semantically
significant fields. -/
def hashTaskState (task : Task) : Fingerprint :=
  { text := task.text
    completed := task.completed
    completeDate := task.completeDate
    snoozeUntil := jsOrStr (task.snooze.map (·.untilDate)).join
    dueDate := task.dueDate
    timeEstimate := task.timeEstimate
    notes := task.notes
    streamIds := task.streamIds
    timeHorizonType := jsOrStr (task.timeHorizon.map (·.type))
    timeHorizonRelativeTo := jsOrStr (task.timeHorizon.bind (·.relativeTo)) }

/-- `StoredTaskState` from `types.ts`. -/
structure StoredTaskState where
  id : String
  text : String
  completed : Bool
  completedAt : Option String
  snoozeUntil : Option String
  dueDate : Option String
  timeEstimate : Option Int
  timeHorizonType : Option String
  updatedAt : String
  hash : Fingerprint
deriving DecidableEq, Repr

/-- `taskToStoredState` (watcher.ts); `now` is the injected
`new Date().toISOString()`. -/
def taskToStoredState (now : String) (task : Task) : StoredTaskState :=
  { id := task._id
    text := task.text
    completed := task.completed
    completedAt := jsOrStr task.completeDate
    snoozeUntil := jsOrStr (task.snooze.map (·.untilDate)).join
    dueDate := jsOrStr task.dueDate
    timeEstimate := jsOrInt task.timeEstimate
    timeHorizonType := jsOrStr (task.timeHorizon.map (·.type))
    updatedAt := now
    hash := hashTaskState task }

/-- `null`-or-string field value for a change map. -/
def strVal (o : Option String) : FieldVal :=
  match o with
  | some s => .str s
  | none => .null

/-- `null`-or-number field value for a change map. -/
def numVal (o : Option Int) : FieldVal :=
  match o with
  | some n => .num n
  | none => .null

/-- The result of `detectChanges`: an event plus an optional field-level
change map (insertion-ordered association list). -/
structure DetectedChange where
  event : WebhookEventType
  changes : Option (List (String × FieldChange)) := none
deriving DecidableEq, Repr

/-- `detectChanges` (watcher.ts lines 279–344), translated branch for
branch. -/
def detectChanges (oldState newState : Option StoredTaskState) :
    Option DetectedChange :=
  match oldState, newState with
  | some _, none => some { event := .deleted }
  | none, some _ => some { event := .created }
  | some o, some n =>
    if o.hash ≠ n.hash then
      if !o.completed && n.completed then some { event := .completed }
      else if o.completed && !n.completed then some { event := .uncompleted }
      else if o.snoozeUntil ≠ n.snoozeUntil then
        some { event := .scheduled
               changes := some [("snoozeUntil",
                 ⟨strVal o.snoozeUntil, strVal n.snoozeUntil⟩)] }
      else if o.timeHorizonType ≠ n.timeHorizonType then
        some { event := .scheduled
               changes := some [("timeHorizon",
                 ⟨strVal o.timeHorizonType, strVal n.timeHorizonType⟩)] }
      else
        let changes : List (String × FieldChange) :=
          (if o.text ≠ n.text then
            [("text", ⟨.str o.text, .str n.text⟩)] else []) ++
          (if o.dueDate ≠ n.dueDate then
            [("dueDate", ⟨strVal o.dueDate, strVal n.dueDate⟩)] else []) ++
          (if o.timeEstimate ≠ n.timeEstimate then
            [("timeEstimate",
              ⟨numVal o.timeEstimate, numVal n.timeEstimate⟩)] else [])
        some { event := .updated
               changes := if changes.length > 0 then some changes else none }
    else none
  | none, none => none

/-! ## Association lists: JavaScript objects and `Map`s -/

/-- Read a key from a string-keyed JavaScript object / `Map`. -/
def alookup (k : String) : List (String × α) → Option α
  | [] => none
  | (k', v) :: t => if k = k' then some v else alookup k t

/-- Write a key: an existing key keeps its position and is overwritten, a
fresh key is appended (JavaScript object / `Map` insertion-order
semantics). -/
def recSet (m : List (String × α)) (k : String) (v : α) : List (String × α) :=
  match m with
  | [] => [(k, v)]
  | (k', v') :: t => if k = k' then (k, v) :: t else (k', v') :: recSet t k v

/-- Delete a key (`redis.del`). -/
def adel (k : String) : List (String × α) → List (String × α)
  | [] => []
  | (k', v) :: t => if k = k' then adel k t else (k', v) :: adel k t

/-- The keys of an association list. -/
def akeys (m : List (String × α)) : List String := m.map Prod.fst

/-! ## Self-origin markers (`redis/client.ts`)

The marker store for one subscriber is the association list
`taskId ↦ eventType`; the Redis key `api_change:<apiKey>:<taskId>` is keyed
per subscriber by the task id. -/

/-- `markApiChange` (client.ts lines 103–112): record that a change to
`taskId` was made through this API (the TTL is not modelled; markers are
explicit state). -/
def markApiChange (markers : List (String × String))
    (taskId eventType : String) : List (String × String) :=
  recSet markers taskId eventType

/-- `checkApiChange` (client.ts lines 121–132): read the marker and delete
it if present (single-use). Returns the marker value and the marker store
after the consultation. -/
def checkApiChange (markers : List (String × String)) (taskId : String) :
    Option String × List (String × String) :=
  match alookup taskId markers with
  | some v => (some v, adel taskId markers)
  | none => (none, markers)

/-! ## Webhook payloads and the dispatcher (`dispatcher.ts`) -/

/-- `WebhookConfig` from `types.ts`. -/
structure WebhookConfig where
  enabled : Bool
  url : String
  secret : String
  pollInterval : Nat
  pollIntervalWeek : Nat
  pollIntervalPast : Nat
  pollIntervalFuture : Nat
  pollWeeksPast : Nat
  pollExtraDaysPast : Nat
  pollWeeksAhead : Nat
  pollExtraDaysAhead : Nat
  events : List WebhookEventType
deriving DecidableEq, Repr

/-- `WebhookPayload` from `types.ts` (the `data` object is flattened into
`task`, `previousTask`, `changes`). -/
structure WebhookPayload where
  event : WebhookEventType
  timestamp : String
  apiKey : String
  task : Option Task
  previousTask : Option Task := none
  changes : Option (List (String × FieldChange)) := none
deriving DecidableEq, Repr

/-- `createWebhookPayload` (dispatcher.ts); `now` is the injected
`new Date().toISOString()`. -/
def createWebhookPayload (event : WebhookEventType) (apiKey now : String)
    (task : Option Task) (changes : Option (List (String × FieldChange))) :
    WebhookPayload :=
  { event := event, timestamp := now, apiKey := apiKey, task := task
    changes := changes }

/-- `WebhookDeliveryResult` from `types.ts`. -/
structure WebhookDeliveryResult where
  success : Bool
  statusCode : Option Int := none
  error : Option String := none
  duration : Int
deriving DecidableEq, Repr

/-- The outcome of the single `fetch` POST performed by `dispatchWebhook`:
a 2xx response, a non-2xx response (whose body text may itself fail to
read), or a thrown transport error / timeout (whose `message` is present
when the thrown value is an `Error`). -/
inductive HttpOutcome where
  | ok (status : Int)
  | httpError (status : Int) (bodyText : Option String)
  | thrown (message : Option String)
deriving DecidableEq, Repr

/-- JavaScript `String.prototype.slice(0, n)`: the first `n` characters. -/
def jsSlice (s : String) (n : Nat) : String := String.mk (s.data.take n)

/-- `dispatchWebhook` (dispatcher.ts lines 23–87). `outcome` is the result
of the HTTP POST when one is performed, `elapsed` the wall-clock duration
read. Returns the delivery result together with whether an HTTP request
was made at all. -/
def dispatchWebhook (config : WebhookConfig) (payload : WebhookPayload)
    (outcome : HttpOutcome) (elapsed : Int) :
    WebhookDeliveryResult × Bool :=
  if config.events.length > 0 && !(config.events.contains payload.event) then
    ({ success := true, duration := elapsed }, false)
  else
    match outcome with
    | .ok status =>
      ({ success := true, statusCode := some status, duration := elapsed },
        true)
    | .httpError status bodyText =>
      let errorText := bodyText.getD "Unknown error"
      ({ success := false, statusCode := some status
         error := some (jsSlice errorText 500), duration := elapsed }, true)
    | .thrown message =>
      let errorMessage := message.getD "Unknown error"
      ({ success := false, error := some errorMessage, duration := elapsed },
        true)

/-! ## The watcher poll cycle (`watcher.ts`) -/

/-- `UserTasksState` from `types.ts`. -/
structure UserTasksState where
  lastPoll : String
  tasks : List (String × StoredTaskState)
deriving DecidableEq, Repr

/-- What `getStoredState` observes in Redis: the read throws, the key is
absent, the key holds an unparseable blob, or it holds a parseable state. -/
inductive StoreRead where
  | err
  | missing
  | corrupt
  | ok (st : UserTasksState)
deriving DecidableEq, Repr

/-- `getStoredState` (watcher.ts lines 257–266): `none` data and a JSON
parse failure both yield `null`; a thrown Redis error propagates
(`Except.error`). -/
def getStoredState : StoreRead → Except Unit (Option UserTasksState)
  | .err => .error ()
  | .missing => .ok none
  | .corrupt => .ok none
  | .ok st => .ok (some st)

/-- `currentTasksMap` construction (watcher.ts lines 516–519): fold the
fetched task list into a `Map` keyed by `task._id`. -/
def buildTaskMap (tasks : List Task) : List (String × Task) :=
  tasks.foldl (fun m t => recSet m t._id t) []

/-- The mutable state of the per-task loop in `pollForUser`: the merged
`newState.tasks`, the self-origin marker store, and the payloads handed to
`dispatchWebhook` so far. -/
structure LoopState where
  tasks : List (String × StoredTaskState)
  markers : List (String × String)
  dispatched : List WebhookPayload
deriving Repr

/-- One iteration of the `for (const [taskId, currentTask] of
currentTasksMap)` loop in `pollForUser` (watcher.ts lines 545–577). The
`apiOriginated` value consulted by the `if` is `(checkApiChange …).1`,
which equals `alookup taskId st.markers` (the match scrutinee below); the
marker store afterwards is `(checkApiChange …).2` in either case. -/
def processTask (apiKey now : String)
    (oldTasks : List (String × StoredTaskState)) (st : LoopState)
    (e : String × Task) : LoopState :=
  match alookup e.1 oldTasks with
  | none =>
    { st with tasks := recSet st.tasks e.1 (taskToStoredState now e.2) }
  | some oldTaskState =>
    match detectChanges (some oldTaskState)
        (some (taskToStoredState now e.2)) with
    | none =>
      { st with tasks := recSet st.tasks e.1 (taskToStoredState now e.2) }
    | some change =>
      match alookup e.1 st.markers with
      | some _ =>
        { tasks := recSet st.tasks e.1 (taskToStoredState now e.2)
          markers := (checkApiChange st.markers e.1).2
          dispatched := st.dispatched }
      | none =>
        { tasks := recSet st.tasks e.1 (taskToStoredState now e.2)
          markers := (checkApiChange st.markers e.1).2
          dispatched := st.dispatched ++
            [createWebhookPayload change.event apiKey now (some e.2)
              change.changes] }

/-- The result of one `pollForUser` cycle: the payloads dispatched, the
state written back (`none` when the cycle aborted before saving), and the
marker store afterwards. -/
structure PollResult where
  dispatched : List WebhookPayload
  savedState : Option UserTasksState
  markers : List (String × String)
deriving Repr

/-- `pollForUser` (watcher.ts lines 495–588) for one subscriber and one
tier, with the fetched tasks, the store read and the marker store as
explicit inputs. A thrown store read lands in the surrounding `catch`:
nothing is dispatched or saved. -/
def pollForUser (apiKey : String) (store : StoreRead) (rawTasks : List Task)
    (markers0 : List (String × String)) (now : String) : PollResult :=
  match getStoredState store with
  | .error _ => { dispatched := [], savedState := none, markers := markers0 }
  | .ok storedState =>
    let currentTasksMap := buildTaskMap rawTasks
    let oldTasksMap := (storedState.map (·.tasks)).getD []
    if oldTasksMap.isEmpty then
      let newTasks := currentTasksMap.foldl
        (fun m e => recSet m e.1 (taskToStoredState now e.2)) oldTasksMap
      { dispatched := []
        savedState := some { lastPoll := now, tasks := newTasks }
        markers := markers0 }
    else
      let final := currentTasksMap.foldl
        (processTask apiKey now oldTasksMap)
        { tasks := oldTasksMap, markers := markers0, dispatched := [] }
      { dispatched := final.dispatched
        savedState := some { lastPoll := now, tasks := final.tasks }
        markers := final.markers }

/-! ## Scope scheduler (`watcher.ts` lines 346–490)

Calendar dates are day numbers: `Int`, counted in days since 1970-01-01
(a Thursday). `toISOString().split('T')[0]` then *is* the day number, and
`Date.prototype.getDay` (0 = Sunday) is `(d + 4) % 7`. -/

/-- `Date.prototype.getDay` on a day number: 0 = Sunday, 1 = Monday, … -/
def jsGetDay (d : Int) : Int := (d + 4) % 7

/-- `getDateOffset` (watcher.ts lines 349–353). -/
def getDateOffset (daysOffset : Int) (baseDate : Int) : Int :=
  baseDate + daysOffset

/-- `getThisWeekMonday` (watcher.ts lines 358–366), on the current day
number. -/
def getThisWeekMonday (today : Int) : Int :=
  let dayOfWeek := jsGetDay today
  let daysFromMonday := if dayOfWeek = 0 then 6 else dayOfWeek - 1
  today - daysFromMonday

/-- `getWeekDays` (watcher.ts lines 371–377). -/
def getWeekDays (monday : Int) : List Int :=
  (List.range 7).map (fun (i : Nat) => getDateOffset (i : Int) monday)

/-- The four polling tiers (`PollScope` in watcher.ts). -/
inductive PollScope where
  | today
  | week
  | past
  | future
deriving DecidableEq, Repr

/-- JavaScript `n || fallback` on a number: `0` is falsy. -/
def jsOrNat (n fallback : Nat) : Nat := if n = 0 then fallback else n

/-- `getDaysForScope` (watcher.ts lines 419–490), with the current day
number injected. -/
def getDaysForScope (scope : PollScope) (config : WebhookConfig)
    (today : Int) : List Int :=
  let thisMonday := getThisWeekMonday today
  match scope with
  | .today => [getDateOffset 0 today]
  | .week =>
    (getWeekDays thisMonday).filter (fun day => day != getDateOffset 0 today)
  | .past =>
    let weeksPast := jsOrNat config.pollWeeksPast 1
    let extraDaysPast := jsOrNat config.pollExtraDaysPast 0
    let weekBlocks := ((List.range weeksPast).map (fun (w0 : Nat) =>
      getWeekDays (thisMonday - ((w0 : Int) + 1) * 7))).flatten
    let earliestMonday := thisMonday - (weeksPast : Int) * 7
    let extraDays := (List.range extraDaysPast).map (fun (d0 : Nat) =>
      getDateOffset (-((d0 : Int) + 1)) earliestMonday)
    weekBlocks ++ extraDays
  | .future =>
    let weeksAhead := jsOrNat config.pollWeeksAhead 1
    let extraDaysAhead := jsOrNat config.pollExtraDaysAhead 0
    let weekBlocks := ((List.range weeksAhead).map (fun (w0 : Nat) =>
      getWeekDays (thisMonday + ((w0 : Int) + 1) * 7))).flatten
    let latestSunday := thisMonday + (weeksAhead : Int) * 7 + 6
    let extraDays := (List.range extraDaysAhead).map (fun (d0 : Nat) =>
      getDateOffset ((d0 : Int) + 1) latestSunday)
    weekBlocks ++ extraDays

/-! ## Task mutation route handlers (`routes/tasks.ts`)

Each handler's successful path is abstracted to the sequence of external
effects it performs, in order: the Sunsama client mutation call and the
JSON response. Recording a self-origin marker (`markApiChange` from
`redis/client.ts`) would be a further effect; the embedding records one
`RouteEffect` constructor per kind so its absence is checkable. -/

/-- An external effect performed by a route handler. -/
inductive RouteEffect where
  | clientCall (method : String) (taskId : Option String)
  | markApiChangeCall (taskId : String) (eventType : String)
  | jsonResponse (status : Int)
deriving DecidableEq, Repr

/-- The nine task mutation route handlers of `routes/tasks.ts`
(create, complete, snooze, notes, planned-time, due-date, text, stream,
delete), each with the effect sequence of its successful path, translated
from the handler bodies. -/
def taskMutationRoutes (id : String) : List (String × List RouteEffect) :=
  [ ("POST /api/tasks",
      [.clientCall "createTask" none, .jsonResponse 201]),
    ("PATCH /api/tasks/:id/complete",
      [.clientCall "updateTaskComplete" (some id), .jsonResponse 200]),
    ("PATCH /api/tasks/:id/snooze",
      [.clientCall "updateTaskSnoozeDate" (some id), .jsonResponse 200]),
    ("PATCH /api/tasks/:id/notes",
      [.clientCall "updateTaskNotes" (some id), .jsonResponse 200]),
    ("PATCH /api/tasks/:id/planned-time",
      [.clientCall "updateTaskPlannedTime" (some id), .jsonResponse 200]),
    ("PATCH /api/tasks/:id/due-date",
      [.clientCall "updateTaskDueDate" (some id), .jsonResponse 200]),
    ("PATCH /api/tasks/:id/text",
      [.clientCall "updateTaskText" (some id), .jsonResponse 200]),
    ("PATCH /api/tasks/:id/stream",
      [.clientCall "updateTaskStream" (some id), .jsonResponse 200]),
    ("DELETE /api/tasks/:id",
      [.clientCall "deleteTask" (some id), .jsonResponse 200]) ]

/-- Whether an effect sequence records a self-origin marker. -/
def recordsMarker (effects : List RouteEffect) : Bool :=
  effects.any (fun e =>
    match e with
    | .markApiChangeCall _ _ => true
    | _ => false)

/-- The task id a dispatched payload is about. -/
def payloadTaskId (p : WebhookPayload) : Option String :=
  p.task.map (·._id)

/-- The pure evolution of `newState.tasks` over a list of map entries:
each entry's snapshot is written with `recSet`. -/
def storeFold (now : String) (m : List (String × StoredTaskState))
    (es : List (String × Task)) : List (String × StoredTaskState) :=
  es.foldl (fun m e => recSet m e.1 (taskToStoredState now e.2)) m

/-- The task map obtained from a store read as `pollForUser` sees it:
`none` when the read throws, otherwise `storedState?.tasks || {}`. -/
def loadedTasks (store : StoreRead) :
    Option (List (String × StoredTaskState)) :=
  match getStoredState store with
  | .error _ => none
  | .ok s => some ((s.map (·.tasks)).getD [])

/-- Modelled from the spec (§4.4 step 5): for the `updated` case, "change
map containing only the differing fields among {text, dueDate,
timeEstimate} (omit the map entirely if none differ)". Stated from the
spec's words, to be compared against `detectChanges`. -/
def specUpdatedChanges (o n : StoredTaskState) :
    Option (List (String × FieldChange)) :=
  let m : List (String × FieldChange) :=
    (if o.text ≠ n.text then
      [("text", ⟨.str o.text, .str n.text⟩)] else []) ++
    (if o.dueDate ≠ n.dueDate then
      [("dueDate", ⟨strVal o.dueDate, strVal n.dueDate⟩)] else []) ++
    (if o.timeEstimate ≠ n.timeEstimate then
      [("timeEstimate", ⟨numVal o.timeEstimate, numVal n.timeEstimate⟩)]
     else [])
  if m = [] then none else some m

/-- A sample raw task used to evaluate the embedding on concrete inputs. -/
def sampleTask : Task :=
  { _id := "t1", text := "Buy milk", completed := false
    completeDate := none, snooze := none, dueDate := none
    timeEstimate := none, notes := none, streamIds := []
    timeHorizon := none }

/-- `sampleTask` after completion (completion flag flipped, completion
date set, due date also changed). -/
def sampleTaskDone : Task :=
  { _id := "t1", text := "Buy milk", completed := true
    completeDate := some "2025-01-05T10:00:00Z", snooze := none
    dueDate := some "2025-01-10", timeEstimate := none, notes := none
    streamIds := [], timeHorizon := none }

/-- A second sample task, distinct from `sampleTask`. -/
def sampleTask2 : Task :=
  { _id := "t2", text := "Write report", completed := false
    completeDate := none, snooze := some ⟨some "2025-01-08"⟩
    dueDate := none, timeEstimate := some 30, notes := none
    streamIds := [], timeHorizon := some ⟨"week", none⟩ }

/-! ## Association-list lemmas -/

theorem alookup_recSet_self {α : Type} (m : List (String × α)) (k : String)
    (v : α) : alookup k (recSet m k v) = some v := by
  induction m with
  | nil => simp [recSet, alookup]
  | cons p t ih =>
    obtain ⟨k', v'⟩ := p
    by_cases h : k = k' <;> simp [recSet, alookup, h, ih]

theorem alookup_recSet_ne {α : Type} (m : List (String × α)) {k k' : String}
    (v : α) (h : k ≠ k') : alookup k (recSet m k' v) = alookup k m := by
  induction m with
  | nil => simp [recSet, alookup, h]
  | cons p t ih =>
    obtain ⟨k₁, v₁⟩ := p
    by_cases h1 : k' = k₁
    · subst h1
      simp [recSet, alookup, h]
    · by_cases h2 : k = k₁ <;> simp [recSet, alookup, h1, h2, ih]

theorem alookup_adel_self {α : Type} (m : List (String × α)) (k : String) :
    alookup k (adel k m) = none := by
  induction m with
  | nil => simp [adel, alookup]
  | cons p t ih =>
    obtain ⟨k₁, v₁⟩ := p
    by_cases h : k = k₁
    · subst h
      simpa [adel] using ih
    · simp [adel, alookup, h, ih]

theorem alookup_adel_ne {α : Type} (m : List (String × α)) {k k' : String}
    (h : k ≠ k') : alookup k (adel k' m) = alookup k m := by
  induction m with
  | nil => simp [adel, alookup]
  | cons p t ih =>
    obtain ⟨k₁, v₁⟩ := p
    by_cases h1 : k' = k₁
    · subst h1
      simp [adel, alookup, h, ih]
    · by_cases h2 : k = k₁ <;> simp [adel, alookup, h1, h2, ih]

theorem alookup_adel_none {α : Type} (m : List (String × α)) {k : String}
    (k' : String) (h : alookup k m = none) :
    alookup k (adel k' m) = none := by
  by_cases hk : k = k'
  · subst hk
    exact alookup_adel_self m k
  · rw [alookup_adel_ne m hk]
    exact h

theorem alookup_recSet_isSome {α : Type} (m : List (String × α))
    {k : String} (k' : String) (v : α) (h : (alookup k m).isSome) :
    (alookup k (recSet m k' v)).isSome := by
  by_cases hk : k = k'
  · subst hk
    simp [alookup_recSet_self]
  · rw [alookup_recSet_ne m v hk]
    exact h

theorem mem_akeys {α : Type} {m : List (String × α)} {x : String} :
    x ∈ akeys m ↔ ∃ v, (x, v) ∈ m := by
  constructor
  · intro h
    obtain ⟨p, hp, he⟩ := List.mem_map.mp h
    exact ⟨p.2, by cases p; cases he; exact hp⟩
  · rintro ⟨v, hv⟩
    exact List.mem_map.mpr ⟨(x, v), hv, rfl⟩

theorem mem_recSet {α : Type} {m : List (String × α)} {p : String × α}
    {k : String} {v : α} (h : p ∈ recSet m k v) : p ∈ m ∨ p = (k, v) := by
  induction m with
  | nil =>
    simp [recSet] at h
    exact Or.inr h
  | cons q t ih =>
    obtain ⟨k₁, v₁⟩ := q
    by_cases h1 : k = k₁
    · subst h1
      simp [recSet] at h
      rcases h with h | h
      · exact Or.inr (by simp [h])
      · exact Or.inl (by simp [h])
    · simp [recSet, h1] at h
      rcases h with h | h
      · exact Or.inl (by simp [h])
      · rcases ih h with h2 | h2
        · exact Or.inl (by simp [h2])
        · exact Or.inr h2

theorem mem_akeys_recSet {α : Type} {m : List (String × α)}
    {k x : String} {v : α} (h : x ∈ akeys (recSet m k v)) :
    x ∈ akeys m ∨ x = k := by
  obtain ⟨w, hw⟩ := mem_akeys.mp h
  rcases mem_recSet hw with h1 | h1
  · exact Or.inl (mem_akeys.mpr ⟨w, h1⟩)
  · exact Or.inr (congrArg Prod.fst h1)

theorem nodup_akeys_recSet {α : Type} {m : List (String × α)} (k : String)
    (v : α) (h : (akeys m).Nodup) : (akeys (recSet m k v)).Nodup := by
  induction m with
  | nil => simp [recSet, akeys]
  | cons p t ih =>
    obtain ⟨k₁, v₁⟩ := p
    have h' : k₁ ∉ akeys t ∧ (akeys t).Nodup := List.nodup_cons.mp h
    by_cases h1 : k = k₁
    · subst h1
      have : recSet ((k, v₁) :: t) k v = (k, v) :: t := by simp [recSet]
      rw [this]
      exact List.nodup_cons.mpr h'
    · have : recSet ((k₁, v₁) :: t) k v = (k₁, v₁) :: recSet t k v := by
        simp [recSet, h1]
      rw [this]
      refine List.nodup_cons.mpr ⟨fun hmem => ?_, ih h'.2⟩
      rcases mem_akeys_recSet hmem with h2 | h2
      · exact h'.1 h2
      · exact h1 h2.symm

theorem alookup_mem {α : Type} {m : List (String × α)} {k : String}
    {v : α} (h : alookup k m = some v) : (k, v) ∈ m := by
  induction m with
  | nil => simp [alookup] at h
  | cons q t ih =>
    obtain ⟨k₁, v₁⟩ := q
    by_cases h1 : k = k₁
    · subst h1
      simp [alookup] at h
      simp [h]
    · simp [alookup, h1] at h
      simp [ih h]

theorem alookup_of_mem_nodup {α : Type} {m : List (String × α)}
    {k : String} {v : α} (hnd : (akeys m).Nodup) (h : (k, v) ∈ m) :
    alookup k m = some v := by
  induction m with
  | nil => simp at h
  | cons q t ih =>
    obtain ⟨k₁, v₁⟩ := q
    have hnd' : k₁ ∉ akeys t ∧ (akeys t).Nodup := List.nodup_cons.mp hnd
    rcases List.mem_cons.mp h with h1 | h1
    · cases h1
      simp [alookup]
    · have hk : k ≠ k₁ := by
        intro he
        subst he
        exact hnd'.1 (mem_akeys.mpr ⟨v, h1⟩)
      simp [alookup, hk]
      exact ih hnd'.2 h1

theorem recSet_of_not_mem_akeys {α : Type} {m : List (String × α)}
    {k : String} (v : α) (h : k ∉ akeys m) :
    recSet m k v = m ++ [(k, v)] := by
  induction m with
  | nil => simp [recSet]
  | cons q t ih =>
    obtain ⟨k₁, v₁⟩ := q
    have h1 : k ≠ k₁ := by
      intro he
      exact h (by rw [he]; exact List.mem_cons_self _ _)
    have h2 : k ∉ akeys t := fun hm => h (List.mem_cons_of_mem _ hm)
    simp [recSet, h1, ih h2]

theorem alookup_none_of_not_mem_akeys {α : Type} {m : List (String × α)}
    {k : String} (h : k ∉ akeys m) : alookup k m = none := by
  induction m with
  | nil => simp [alookup]
  | cons q t ih =>
    obtain ⟨k₁, v₁⟩ := q
    have h1 : k ≠ k₁ := by
      intro he
      exact h (by rw [he]; exact List.mem_cons_self _ _)
    have h2 : k ∉ akeys t := fun hm => h (List.mem_cons_of_mem _ hm)
    simp [alookup, h1, ih h2]

theorem mem_akeys_of_alookup {α : Type} {m : List (String × α)}
    {k : String} {v : α} (h : alookup k m = some v) : k ∈ akeys m :=
  mem_akeys.mpr ⟨v, alookup_mem h⟩

/-! ## Marker-consultation lemmas -/

theorem checkApiChange_fst (m : List (String × String)) (tid : String) :
    (checkApiChange m tid).1 = alookup tid m := by
  unfold checkApiChange
  cases h : alookup tid m <;> simp [h]

theorem checkApiChange_snd_lookup_self (m : List (String × String))
    (tid : String) : alookup tid (checkApiChange m tid).2 = none := by
  unfold checkApiChange
  cases h : alookup tid m with
  | none => simpa using h
  | some v => simpa using alookup_adel_self m tid

theorem checkApiChange_snd_lookup_ne (m : List (String × String))
    {k tid : String} (h : k ≠ tid) :
    alookup k (checkApiChange m tid).2 = alookup k m := by
  unfold checkApiChange
  cases h1 : alookup tid m with
  | none => simp
  | some v => simpa using alookup_adel_ne m h

theorem checkApiChange_snd_lookup_none (m : List (String × String))
    {k : String} (tid : String) (h : alookup k m = none) :
    alookup k (checkApiChange m tid).2 = none := by
  by_cases hk : k = tid
  · subst hk
    exact checkApiChange_snd_lookup_self m k
  · rw [checkApiChange_snd_lookup_ne m hk]
    exact h

/-! ## Per-task loop lemmas -/

theorem processTask_tasks (apiKey now : String)
    (oldTasks : List (String × StoredTaskState)) (st : LoopState)
    (e : String × Task) :
    (processTask apiKey now oldTasks st e).tasks =
      recSet st.tasks e.1 (taskToStoredState now e.2) := by
  unfold processTask
  cases h1 : alookup e.1 oldTasks with
  | none => simp
  | some old =>
    cases h2 : detectChanges (some old) (some (taskToStoredState now e.2)) with
    | none => simp [h2]
    | some change =>
      cases h3 : alookup e.1 st.markers <;> simp [h2, h3]

theorem processTask_markers_cases (apiKey now : String)
    (oldTasks : List (String × StoredTaskState)) (st : LoopState)
    (e : String × Task) :
    (processTask apiKey now oldTasks st e).markers = st.markers ∨
      (processTask apiKey now oldTasks st e).markers =
        (checkApiChange st.markers e.1).2 := by
  unfold processTask
  cases h1 : alookup e.1 oldTasks with
  | none => exact Or.inl (by simp)
  | some old =>
    cases h2 : detectChanges (some old) (some (taskToStoredState now e.2)) with
    | none => exact Or.inl (by simp [h2])
    | some change =>
      cases h3 : alookup e.1 st.markers <;> exact Or.inr (by simp [h2, h3])

theorem processTask_markers_lookup_none (apiKey now : String)
    (oldTasks : List (String × StoredTaskState)) (st : LoopState)
    (e : String × Task) {k : String} (h : alookup k st.markers = none) :
    alookup k (processTask apiKey now oldTasks st e).markers = none := by
  rcases processTask_markers_cases apiKey now oldTasks st e with h1 | h1
  · rw [h1]; exact h
  · rw [h1]; exact checkApiChange_snd_lookup_none st.markers e.1 h

theorem processTask_markers_lookup_ne (apiKey now : String)
    (oldTasks : List (String × StoredTaskState)) (st : LoopState)
    (e : String × Task) {k : String} (h : k ≠ e.1) :
    alookup k (processTask apiKey now oldTasks st e).markers =
      alookup k st.markers := by
  rcases processTask_markers_cases apiKey now oldTasks st e with h1 | h1
  · rw [h1]
  · rw [h1]; exact checkApiChange_snd_lookup_ne st.markers h

theorem processTask_markers_consumed (apiKey now : String)
    (oldTasks : List (String × StoredTaskState)) (st : LoopState)
    (e : String × Task) {old : StoredTaskState} {change : DetectedChange}
    (hold : alookup e.1 oldTasks = some old)
    (hch : detectChanges (some old) (some (taskToStoredState now e.2)) =
      some change) :
    alookup e.1 (processTask apiKey now oldTasks st e).markers = none := by
  unfold processTask
  rw [hold]
  cases h3 : alookup e.1 st.markers <;>
    simpa [hch, h3] using checkApiChange_snd_lookup_self st.markers e.1

theorem processTask_dispatched_cases (apiKey now : String)
    (oldTasks : List (String × StoredTaskState)) (st : LoopState)
    (e : String × Task) :
    (processTask apiKey now oldTasks st e).dispatched = st.dispatched ∨
      ∃ old change, alookup e.1 oldTasks = some old ∧
        detectChanges (some old) (some (taskToStoredState now e.2)) =
          some change ∧
        alookup e.1 st.markers = none ∧
        (processTask apiKey now oldTasks st e).dispatched =
          st.dispatched ++ [createWebhookPayload change.event apiKey now
            (some e.2) change.changes] := by
  unfold processTask
  cases h1 : alookup e.1 oldTasks with
  | none => exact Or.inl (by simp)
  | some old =>
    cases h2 : detectChanges (some old) (some (taskToStoredState now e.2)) with
    | none => exact Or.inl (by simp [h2])
    | some change =>
      cases h3 : alookup e.1 st.markers with
      | some v => exact Or.inl (by simp [h2, h3])
      | none => exact Or.inr ⟨old, change, rfl, h2, rfl, by simp [h2, h3]⟩

theorem processTask_dispatch_eq (apiKey now : String)
    (oldTasks : List (String × StoredTaskState)) (st : LoopState)
    (e : String × Task) {old : StoredTaskState} {change : DetectedChange}
    (hold : alookup e.1 oldTasks = some old)
    (hch : detectChanges (some old) (some (taskToStoredState now e.2)) =
      some change)
    (hm : alookup e.1 st.markers = none) :
    (processTask apiKey now oldTasks st e).dispatched =
      st.dispatched ++ [createWebhookPayload change.event apiKey now
        (some e.2) change.changes] := by
  unfold processTask
  rw [hold]
  simp [hch, hm]

theorem processTask_dispatched_of_marker (apiKey now : String)
    (oldTasks : List (String × StoredTaskState)) (st : LoopState)
    (e : String × Task) {v : String}
    (hm : alookup e.1 st.markers = some v) :
    (processTask apiKey now oldTasks st e).dispatched = st.dispatched := by
  unfold processTask
  cases h1 : alookup e.1 oldTasks with
  | none => simp
  | some old =>
    cases h2 : detectChanges (some old) (some (taskToStoredState now e.2)) with
    | none => simp [h2]
    | some change => simp [h2, hm]

theorem processTask_markers_lookup_some_ne (apiKey now : String)
    (oldTasks : List (String × StoredTaskState)) (st : LoopState)
    (e : String × Task) {k v : String} (hne : k ≠ e.1)
    (h : alookup k st.markers = some v) :
    alookup k (processTask apiKey now oldTasks st e).markers = some v := by
  rw [processTask_markers_lookup_ne apiKey now oldTasks st e hne]
  exact h

/-! ## Fold lemmas for the merged task map -/

theorem storeFold_nil (now : String) (m : List (String × StoredTaskState)) :
    storeFold now m [] = m := rfl

theorem storeFold_cons (now : String) (m : List (String × StoredTaskState))
    (e : String × Task) (es : List (String × Task)) :
    storeFold now m (e :: es) =
      storeFold now (recSet m e.1 (taskToStoredState now e.2)) es := rfl

theorem fst_mem_akeys {α : Type} {e : String × α} {es : List (String × α)}
    (h : e ∈ es) : e.1 ∈ akeys es :=
  mem_akeys.mpr ⟨e.2, h⟩

theorem storeFold_lookup_of_not_mem {now : String}
    {es : List (String × Task)} {tid : String} (h : tid ∉ akeys es) :
    ∀ m : List (String × StoredTaskState),
      alookup tid (storeFold now m es) = alookup tid m := by
  induction es with
  | nil => intro m; rfl
  | cons e es ih =>
    intro m
    have h1 : tid ≠ e.1 := by
      intro he
      exact h (he ▸ fst_mem_akeys (List.mem_cons_self e es))
    have h2 : tid ∉ akeys es := by
      intro hm
      obtain ⟨v, hv⟩ := mem_akeys.mp hm
      exact h (mem_akeys.mpr ⟨v, List.mem_cons_of_mem e hv⟩)
    rw [storeFold_cons, ih h2, alookup_recSet_ne _ _ h1]

theorem storeFold_lookup_self {now : String} {es : List (String × Task)}
    {tid : String} {t : Task} (hnd : (akeys es).Nodup)
    (h : alookup tid es = some t) :
    ∀ m : List (String × StoredTaskState),
      alookup tid (storeFold now m es) =
        some (taskToStoredState now t) := by
  induction es with
  | nil => simp [alookup] at h
  | cons e es ih =>
    intro m
    obtain ⟨k₁, t₁⟩ := e
    have hnd' : k₁ ∉ akeys es ∧ (akeys es).Nodup := List.nodup_cons.mp hnd
    by_cases h1 : tid = k₁
    · subst h1
      simp [alookup] at h
      subst h
      rw [storeFold_cons, storeFold_lookup_of_not_mem hnd'.1]
      exact alookup_recSet_self m tid (taskToStoredState now t₁)
    · simp [alookup, h1] at h
      rw [storeFold_cons]
      exact ih hnd'.2 h _

theorem storeFold_lookup_isSome {now : String} {es : List (String × Task)}
    {tid : String} :
    ∀ m : List (String × StoredTaskState), (alookup tid m).isSome →
      (alookup tid (storeFold now m es)).isSome := by
  induction es with
  | nil => intro m h; exact h
  | cons e es ih =>
    intro m h
    rw [storeFold_cons]
    exact ih _ (alookup_recSet_isSome m e.1 (taskToStoredState now e.2) h)

theorem akeys_recSet_of_not_mem {α : Type} {m : List (String × α)}
    {k : String} (v : α) (h : k ∉ akeys m) :
    akeys (recSet m k v) = akeys m ++ [k] := by
  rw [recSet_of_not_mem_akeys v h]
  simp [akeys]

theorem length_recSet_of_not_mem {α : Type} {m : List (String × α)}
    {k : String} (v : α) (h : k ∉ akeys m) :
    (recSet m k v).length = m.length + 1 := by
  rw [recSet_of_not_mem_akeys v h]
  simp

theorem storeFold_length {now : String} {es : List (String × Task)}
    (hnd : (akeys es).Nodup) :
    ∀ m : List (String × StoredTaskState), (∀ e ∈ es, e.1 ∉ akeys m) →
      (storeFold now m es).length = m.length + es.length := by
  induction es with
  | nil => intro m _; rfl
  | cons e es ih =>
    intro m h
    have hnd' : e.1 ∉ akeys es ∧ (akeys es).Nodup := List.nodup_cons.mp hnd
    have he : e.1 ∉ akeys m := h e (List.mem_cons_self e es)
    rw [storeFold_cons]
    have hrest : ∀ e' ∈ es, e'.1 ∉
        akeys (recSet m e.1 (taskToStoredState now e.2)) := by
      intro e' he'
      rw [akeys_recSet_of_not_mem _ he]
      intro hmem
      rcases List.mem_append.mp hmem with hmem | hmem
      · exact h e' (List.mem_cons_of_mem e he') hmem
      · have heq : e'.1 = e.1 := List.mem_singleton.mp hmem
        exact hnd'.1 (heq ▸ fst_mem_akeys he')
    rw [ih hnd'.2 _ hrest, length_recSet_of_not_mem _ he]
    simp [List.length_cons]
    omega

/-! ## Loop-level lemmas -/

theorem loop_tasks_eq (apiKey now : String)
    (oldTasks : List (String × StoredTaskState))
    (es : List (String × Task)) :
    ∀ st : LoopState,
      (es.foldl (processTask apiKey now oldTasks) st).tasks =
        storeFold now st.tasks es := by
  induction es with
  | nil => intro st; rfl
  | cons e es ih =>
    intro st
    rw [List.foldl_cons, storeFold_cons, ih, processTask_tasks]

theorem loop_markers_lookup_none (apiKey now : String)
    (oldTasks : List (String × StoredTaskState))
    (es : List (String × Task)) {k : String} :
    ∀ st : LoopState, alookup k st.markers = none →
      alookup k ((es.foldl (processTask apiKey now oldTasks) st).markers) =
        none := by
  induction es with
  | nil => intro st h; exact h
  | cons e es ih =>
    intro st h
    rw [List.foldl_cons]
    exact ih _ (processTask_markers_lookup_none apiKey now oldTasks st e h)

theorem loop_dispatched_mono (apiKey now : String)
    (oldTasks : List (String × StoredTaskState))
    (es : List (String × Task)) {p : WebhookPayload} :
    ∀ st : LoopState, p ∈ st.dispatched →
      p ∈ (es.foldl (processTask apiKey now oldTasks) st).dispatched := by
  induction es with
  | nil => intro st h; exact h
  | cons e es ih =>
    intro st h
    rw [List.foldl_cons]
    refine ih _ ?_
    rcases processTask_dispatched_cases apiKey now oldTasks st e with
      h1 | ⟨old, ch, _, _, _, h1⟩
    · rw [h1]; exact h
    · rw [h1]; exact List.mem_append_left _ h

theorem loop_markers_consumed (apiKey now : String)
    (oldTasks : List (String × StoredTaskState))
    (es : List (String × Task)) {tid : String} {t : Task}
    {old : StoredTaskState} {ch : DetectedChange}
    (hold : alookup tid oldTasks = some old)
    (hch : detectChanges (some old) (some (taskToStoredState now t)) =
      some ch) :
    ∀ st : LoopState, alookup tid es = some t →
      alookup tid
        ((es.foldl (processTask apiKey now oldTasks) st).markers) = none := by
  induction es with
  | nil => intro st hk; simp [alookup] at hk
  | cons e es ih =>
    intro st hk
    obtain ⟨k₁, t₁⟩ := e
    by_cases h1 : tid = k₁
    · subst h1
      simp [alookup] at hk
      subst hk
      rw [List.foldl_cons]
      exact loop_markers_lookup_none apiKey now oldTasks es _
        (processTask_markers_consumed apiKey now oldTasks st (tid, t₁)
          hold hch)
    · simp [alookup, h1] at hk
      rw [List.foldl_cons]
      exact ih _ hk

theorem loop_dispatch_complete (apiKey now : String)
    (oldTasks : List (String × StoredTaskState))
    (es : List (String × Task)) {tid : String} {t : Task}
    {old : StoredTaskState} {ch : DetectedChange}
    (hold : alookup tid oldTasks = some old)
    (hch : detectChanges (some old) (some (taskToStoredState now t)) =
      some ch) :
    ∀ st : LoopState, alookup tid es = some t →
      alookup tid st.markers = none →
      createWebhookPayload ch.event apiKey now (some t) ch.changes ∈
        (es.foldl (processTask apiKey now oldTasks) st).dispatched := by
  induction es with
  | nil => intro st hk _; simp [alookup] at hk
  | cons e es ih =>
    intro st hk hm
    obtain ⟨k₁, t₁⟩ := e
    by_cases h1 : tid = k₁
    · subst h1
      simp [alookup] at hk
      subst hk
      rw [List.foldl_cons]
      refine loop_dispatched_mono apiKey now oldTasks es _ ?_
      rw [processTask_dispatch_eq apiKey now oldTasks st (tid, t₁)
        hold hch hm]
      exact List.mem_append_right _ (List.mem_singleton.mpr rfl)
    · simp [alookup, h1] at hk
      rw [List.foldl_cons]
      refine ih _ hk ?_
      rw [processTask_markers_lookup_ne apiKey now oldTasks st (k₁, t₁) h1]
      exact hm

theorem loop_dispatch_sound (apiKey now : String)
    (oldTasks : List (String × StoredTaskState))
    (es : List (String × Task)) {p : WebhookPayload} :
    ∀ st : LoopState,
      p ∈ (es.foldl (processTask apiKey now oldTasks) st).dispatched →
      p ∈ st.dispatched ∨ ∃ e ∈ es, ∃ old ch,
        alookup e.1 oldTasks = some old ∧
        detectChanges (some old) (some (taskToStoredState now e.2)) =
          some ch ∧
        p = createWebhookPayload ch.event apiKey now (some e.2)
          ch.changes := by
  induction es with
  | nil => intro st hp; exact Or.inl hp
  | cons e es ih =>
    intro st hp
    rw [List.foldl_cons] at hp
    rcases ih _ hp with h | ⟨e', he', old, ch, h1, h2, h3⟩
    · rcases processTask_dispatched_cases apiKey now oldTasks st e with
        h4 | ⟨old, ch, hold, hch, _, h4⟩
      · rw [h4] at h
        exact Or.inl h
      · rw [h4] at h
        rcases List.mem_append.mp h with h | h
        · exact Or.inl h
        · exact Or.inr ⟨e, List.mem_cons_self e es, old, ch, hold, hch,
            List.mem_singleton.mp h⟩
    · exact Or.inr ⟨e', List.mem_cons_of_mem e he', old, ch, h1, h2, h3⟩

theorem payloadTaskId_create (ev : WebhookEventType) (apiKey now : String)
    (t : Task) (ch : Option (List (String × FieldChange))) :
    payloadTaskId (createWebhookPayload ev apiKey now (some t) ch) =
      some t._id := rfl

theorem loop_no_dispatch_of_marker (apiKey now : String)
    (oldTasks : List (String × StoredTaskState))
    (es : List (String × Task)) {tid v : String} {p : WebhookPayload}
    (hid : ∀ e ∈ es, e.2._id = e.1) (hnd : (akeys es).Nodup) :
    ∀ st : LoopState, alookup tid st.markers = some v →
      p ∈ (es.foldl (processTask apiKey now oldTasks) st).dispatched →
      p ∈ st.dispatched ∨ payloadTaskId p ≠ some tid := by
  induction es with
  | nil => intro st _ hp; exact Or.inl hp
  | cons e es ih =>
    intro st hm hp
    obtain ⟨k₁, t₁⟩ := e
    have hnd' : k₁ ∉ akeys es ∧ (akeys es).Nodup := List.nodup_cons.mp hnd
    have hid' : ∀ e' ∈ es, e'.2._id = e'.1 := fun e' he' =>
      hid e' (List.mem_cons_of_mem _ he')
    rw [List.foldl_cons] at hp
    by_cases h1 : tid = k₁
    · subst h1
      have hdis : (processTask apiKey now oldTasks st (tid, t₁)).dispatched =
          st.dispatched :=
        processTask_dispatched_of_marker apiKey now oldTasks st (tid, t₁) hm
      rcases loop_dispatch_sound apiKey now oldTasks es _ hp with
        h | ⟨e', he', old, ch, _, _, h3⟩
      · rw [hdis] at h
        exact Or.inl h
      · refine Or.inr ?_
        rw [h3, payloadTaskId_create, hid' e' he']
        intro hcontr
        have he : e'.1 = tid := by simpa using hcontr
        exact hnd'.1 (he ▸ fst_mem_akeys he')
    · have hm' : alookup tid
          (processTask apiKey now oldTasks st (k₁, t₁)).markers = some v :=
        processTask_markers_lookup_some_ne apiKey now oldTasks st (k₁, t₁)
          h1 hm
      rcases ih hid' hnd'.2 _ hm' hp with h | h
      · rcases processTask_dispatched_cases apiKey now oldTasks st (k₁, t₁)
          with h4 | ⟨old, ch, _, _, _, h4⟩
        · rw [h4] at h
          exact Or.inl h
        · rw [h4] at h
          rcases List.mem_append.mp h with h | h
          · exact Or.inl h
          · refine Or.inr ?_
            rw [List.mem_singleton.mp h, payloadTaskId_create]
            intro hcontr
            have he : t₁._id = tid := by simpa using hcontr
            exact h1 ((hid (k₁, t₁) (List.mem_cons_self _ _)) ▸ he).symm
      · exact Or.inr h

/-! ## `buildTaskMap` and `pollForUser` structural lemmas -/

theorem buildTaskMap_id {l : List Task} :
    ∀ p ∈ buildTaskMap l, p.2._id = p.1 := by
  unfold buildTaskMap
  have aux : ∀ (l : List Task) (m : List (String × Task)),
      (∀ p ∈ m, p.2._id = p.1) →
      ∀ p ∈ l.foldl (fun m t => recSet m t._id t) m, p.2._id = p.1 := by
    intro l
    induction l with
    | nil => intro m hm p hp; exact hm p hp
    | cons t l ih =>
      intro m hm p hp
      refine ih _ ?_ p hp
      intro q hq
      rcases mem_recSet hq with h | h
      · exact hm q h
      · rw [h]
  exact aux l [] (by intro p hp; simp at hp)

theorem buildTaskMap_nodup {l : List Task} :
    (akeys (buildTaskMap l)).Nodup := by
  unfold buildTaskMap
  have aux : ∀ (l : List Task) (m : List (String × Task)),
      (akeys m).Nodup →
      (akeys (l.foldl (fun m t => recSet m t._id t) m)).Nodup := by
    intro l
    induction l with
    | nil => intro m hm; exact hm
    | cons t l ih =>
      intro m hm
      exact ih _ (nodup_akeys_recSet t._id t hm)
  exact aux l [] (by simp [akeys])

theorem isEmpty_false_of_alookup {α : Type} {m : List (String × α)}
    {k : String} {v : α} (h : alookup k m = some v) :
    m.isEmpty = false := by
  cases m with
  | nil => simp [alookup] at h
  | cons p t => rfl

theorem pollForUser_err (apiKey now : String) (rawTasks : List Task)
    (markers0 : List (String × String)) :
    pollForUser apiKey .err rawTasks markers0 now =
      { dispatched := [], savedState := none, markers := markers0 } := rfl

theorem pollForUser_loaded_empty (apiKey now : String) (store : StoreRead)
    (rawTasks : List Task) (markers0 : List (String × String))
    (h : loadedTasks store = some []) :
    pollForUser apiKey store rawTasks markers0 now =
      { dispatched := []
        savedState := some ⟨now, storeFold now [] (buildTaskMap rawTasks)⟩
        markers := markers0 } := by
  cases store with
  | err => simp [loadedTasks, getStoredState] at h
  | missing => rfl
  | corrupt => rfl
  | ok st =>
    have hst : st.tasks = [] := by
      simpa [loadedTasks, getStoredState] using h
    unfold pollForUser getStoredState
    simp [hst]
    rfl

theorem pollForUser_loaded_nonempty (apiKey now : String)
    (store : StoreRead) (rawTasks : List Task)
    (markers0 : List (String × String))
    (m : List (String × StoredTaskState)) (h : loadedTasks store = some m)
    (hm : m.isEmpty = false) :
    pollForUser apiKey store rawTasks markers0 now =
      { dispatched := ((buildTaskMap rawTasks).foldl
          (processTask apiKey now m)
          { tasks := m, markers := markers0, dispatched := [] }).dispatched
        savedState := some ⟨now, ((buildTaskMap rawTasks).foldl
          (processTask apiKey now m)
          { tasks := m, markers := markers0, dispatched := [] }).tasks⟩
        markers := ((buildTaskMap rawTasks).foldl
          (processTask apiKey now m)
          { tasks := m, markers := markers0, dispatched := [] }).markers } := by
  cases store with
  | err => simp [loadedTasks, getStoredState] at h
  | missing =>
    have : m = [] := by simpa [loadedTasks, getStoredState] using h.symm
    rw [this] at hm
    simp at hm
  | corrupt =>
    have : m = [] := by simpa [loadedTasks, getStoredState] using h.symm
    rw [this] at hm
    simp at hm
  | ok st =>
    have hst : st.tasks = m := by
      simpa [loadedTasks, getStoredState] using h
    unfold pollForUser getStoredState
    subst hst
    simp [hm]

/-! ## Claim C1 — change-detector priority order -/

theorem ite_length_pos_eq (L : List (String × FieldChange)) :
    (if L.length > 0 then some L else none) =
      (if L = [] then none else some L) := by
  cases L <;> simp

/-- C1: for snapshots that both exist and whose fingerprint hashes differ,
`detectChanges` returns exactly one event by the fixed exclusive priority
order: completion false→true ⇒ `completed` (regardless of any other field
changes), completion true→false ⇒ `uncompleted`, otherwise a schedule-date
change ⇒ `scheduled` with `{snoozeUntil: {old, new}}` (taking priority
over a bucket-type change), otherwise a bucket-type change ⇒ `scheduled`
with `{timeHorizon: {old, new}}`, otherwise `updated` with exactly the
spec's change map over {text, dueDate, timeEstimate}, omitted when none
differ. -/
theorem c1_detector_priority (o n : StoredTaskState)
    (hne : o.hash ≠ n.hash) :
    (o.completed = false → n.completed = true →
      detectChanges (some o) (some n) = some { event := .completed }) ∧
    (o.completed = true → n.completed = false →
      detectChanges (some o) (some n) = some { event := .uncompleted }) ∧
    (o.completed = n.completed → o.snoozeUntil ≠ n.snoozeUntil →
      detectChanges (some o) (some n) = some ⟨.scheduled,
        some [("snoozeUntil",
          ⟨strVal o.snoozeUntil, strVal n.snoozeUntil⟩)]⟩) ∧
    (o.completed = n.completed → o.snoozeUntil = n.snoozeUntil →
      o.timeHorizonType ≠ n.timeHorizonType →
      detectChanges (some o) (some n) = some ⟨.scheduled,
        some [("timeHorizon",
          ⟨strVal o.timeHorizonType, strVal n.timeHorizonType⟩)]⟩) ∧
    (o.completed = n.completed → o.snoozeUntil = n.snoozeUntil →
      o.timeHorizonType = n.timeHorizonType →
      detectChanges (some o) (some n) = some ⟨.updated,
        specUpdatedChanges o n⟩) := by
  refine ⟨?_, ?_, ?_, ?_, ?_⟩
  · intro h1 h2
    simp [detectChanges, hne, h1, h2]
  · intro h1 h2
    simp [detectChanges, hne, h1, h2]
  · intro hc hs
    have hb1 : (!o.completed && n.completed) = false := by
      rw [hc]; cases n.completed <;> rfl
    have hb2 : (o.completed && !n.completed) = false := by
      rw [hc]; cases n.completed <;> rfl
    simp [detectChanges, hne, hb1, hb2, hs]
  · intro hc hs ht
    have hb1 : (!o.completed && n.completed) = false := by
      rw [hc]; cases n.completed <;> rfl
    have hb2 : (o.completed && !n.completed) = false := by
      rw [hc]; cases n.completed <;> rfl
    simp [detectChanges, hne, hb1, hb2, hs, ht]
  · intro hc hs ht
    have hb1 : (!o.completed && n.completed) = false := by
      rw [hc]; cases n.completed <;> rfl
    have hb2 : (o.completed && !n.completed) = false := by
      rw [hc]; cases n.completed <;> rfl
    simp only [detectChanges, specUpdatedChanges, hne, hb1, hb2, hs, ht,
      if_true, if_false]
    by_cases h1 : o.text = n.text <;> by_cases h2 : o.dueDate = n.dueDate <;>
      by_cases h3 : o.timeEstimate = n.timeEstimate <;>
      simp [h1, h2, h3, hne]

/-- Witness for C1: `sampleTask` completing while its due date also
changes yields exactly one `completed` event. -/
theorem c1_witness :
    detectChanges (some (taskToStoredState "T0" sampleTask))
      (some (taskToStoredState "T1" sampleTaskDone)) =
      some { event := .completed } :=
  (c1_detector_priority _ _ (by decide)).1 rfl rfl

/-! ## Claim C9 — this-week tier day set -/

/-- C9: for every current date, the this-week tier polls exactly the days
of the current Monday–Sunday week except the current date (six days);
`getThisWeekMonday` lands on a Monday at most 6 days back, with a Sunday
mapping to 6 days past its Monday. -/
theorem c9_week_scope (config : WebhookConfig) (today : Int) :
    jsGetDay (getThisWeekMonday today) = 1 ∧
    getThisWeekMonday today ≤ today ∧
    today ≤ getThisWeekMonday today + 6 ∧
    (jsGetDay today = 0 → today = getThisWeekMonday today + 6) ∧
    (∀ d : Int, d ∈ getDaysForScope .week config today ↔
      (getThisWeekMonday today ≤ d ∧ d ≤ getThisWeekMonday today + 6 ∧
        d ≠ today)) ∧
    (getDaysForScope .week config today).length = 6 := by
  have hmono : getThisWeekMonday today ≤ today ∧
      today ≤ getThisWeekMonday today + 6 ∧
      jsGetDay (getThisWeekMonday today) = 1 ∧
      (jsGetDay today = 0 → today = getThisWeekMonday today + 6) := by
    simp only [getThisWeekMonday, jsGetDay]
    split_ifs with h <;> exact ⟨by omega, by omega, by omega, by omega⟩
  have hweek : getDaysForScope .week config today =
      (getWeekDays (getThisWeekMonday today)).filter
        (fun day => day != getDateOffset 0 today) := rfl
  have hmem : ∀ d : Int, d ∈ getDaysForScope .week config today ↔
      (getThisWeekMonday today ≤ d ∧ d ≤ getThisWeekMonday today + 6 ∧
        d ≠ today) := by
    intro d
    rw [hweek]
    simp only [List.mem_filter, getWeekDays, getDateOffset, List.mem_map,
      List.mem_range, bne_iff_ne, ne_eq, add_zero]
    constructor
    · rintro ⟨⟨i, hi, rfl⟩, hne⟩
      exact ⟨by omega, by omega, by simpa using hne⟩
    · rintro ⟨h1, h2, h3⟩
      refine ⟨⟨(d - getThisWeekMonday today).toNat, by omega, by omega⟩,
        by simpa using h3⟩
  refine ⟨hmono.2.2.1, hmono.1, hmono.2.1, hmono.2.2.2, hmem, ?_⟩
  have hnd : (getWeekDays (getThisWeekMonday today)).Nodup := by
    refine List.Nodup.map ?_ (List.nodup_range 7)
    intro a b hab
    simp only [getDateOffset] at hab
    omega
  have htoday : getDateOffset 0 today ∈
      getWeekDays (getThisWeekMonday today) := by
    simp only [getWeekDays, getDateOffset, List.mem_map, List.mem_range,
      add_zero]
    exact ⟨(today - getThisWeekMonday today).toNat, by omega, by omega⟩
  have h7 : (getWeekDays (getThisWeekMonday today)).length = 7 := by
    simp [getWeekDays]
  rw [hweek, ← List.Nodup.erase_eq_filter hnd,
    List.length_erase_of_mem htoday, h7]

/-! ## Claim C7 — event-type filter short-circuits delivery -/

/-- C7: when the configured event filter is non-empty and excludes the
payload's event type, `dispatchWebhook` performs no HTTP request and
returns `success = true` with the elapsed duration. -/
theorem c7_filtered_event_noop (config : WebhookConfig)
    (payload : WebhookPayload) (outcome : HttpOutcome) (elapsed : Int)
    (h1 : config.events ≠ []) (h2 : payload.event ∉ config.events) :
    dispatchWebhook config payload outcome elapsed =
      ({ success := true, duration := elapsed }, false) := by
  unfold dispatchWebhook
  rw [if_pos]
  simp [h2, List.length_pos, h1]

/-- Witness for C7: a `task.updated` payload against a `[task.completed]`
filter is skipped with a success result and no request. -/
theorem c7_witness :
    dispatchWebhook
      ⟨true, "https://example.invalid/hook", "s", 30, 300, 900, 600,
        1, 0, 1, 0, [.completed]⟩
      (createWebhookPayload .updated "k" "T" none none)
      (.thrown none) 5 =
      ({ success := true, duration := 5 }, false) :=
  c7_filtered_event_noop _ _ _ _ (by decide) (by decide)

/-! ## Claim C10 — dispatcher totality and error capture -/

/-- C10 counterexample: a thrown transport error whose `message` is 501
characters long is stored in the delivery result untruncated, refuting
"any failure's error detail truncated to at most 500 characters". -/
theorem c10_counterexample :
    (dispatchWebhook
        ⟨true, "https://example.invalid/hook", "s", 30, 300, 900, 600,
          1, 0, 1, 0, []⟩
        (createWebhookPayload .updated "k" "T" none none)
        (.thrown (some (String.mk (List.replicate 501 'x')))) 7).1.error =
      some (String.mk (List.replicate 501 'x')) ∧
    500 < (String.mk (List.replicate 501 'x')).length := by
  refine ⟨rfl, ?_⟩
  have h : (String.mk (List.replicate 501 'x')).length = 501 := by
    show (List.replicate 501 'x').length = 501
    exact List.length_replicate 501 'x'
  omega

/-- C10 (amended): for every non-filtered delivery, `dispatchWebhook`
returns a `WebhookDeliveryResult` for every outcome — success with the
status on a 2xx response, failure with the status and the body text
truncated to at most 500 characters on a non-2xx response, and failure
with the (untruncated) thrown message on a transport error/timeout — and
always carries the elapsed duration; no outcome escapes as an exception,
so the enclosing poll loop proceeds regardless. -/
theorem c10_dispatch_total_amended (config : WebhookConfig)
    (payload : WebhookPayload) (outcome : HttpOutcome) (elapsed : Int)
    (hsend : config.events = [] ∨ payload.event ∈ config.events) :
    ((dispatchWebhook config payload outcome elapsed).1.duration =
      elapsed) ∧
    (∀ s, outcome = .ok s →
      dispatchWebhook config payload outcome elapsed =
        ({ success := true, statusCode := some s, duration := elapsed },
          true)) ∧
    (∀ s b, outcome = .httpError s b →
      dispatchWebhook config payload outcome elapsed =
        ({ success := false, statusCode := some s
           error := some (jsSlice (b.getD "Unknown error") 500)
           duration := elapsed }, true) ∧
      (jsSlice (b.getD "Unknown error") 500).length ≤ 500) ∧
    (∀ m, outcome = .thrown m →
      dispatchWebhook config payload outcome elapsed =
        ({ success := false, error := some (m.getD "Unknown error")
           duration := elapsed }, true)) := by
  have hfilter : (config.events.length > 0 &&
      !(config.events.contains payload.event)) = false := by
    rcases hsend with h | h
    · simp [h]
    · simp [h]
  have hbranch : dispatchWebhook config payload outcome elapsed =
      (match outcome with
       | .ok status =>
         ({ success := true, statusCode := some status
            duration := elapsed }, true)
       | .httpError status bodyText =>
         ({ success := false, statusCode := some status
            error := some (jsSlice (bodyText.getD "Unknown error") 500)
            duration := elapsed }, true)
       | .thrown message =>
         ({ success := false
            error := some (message.getD "Unknown error")
            duration := elapsed }, true)) := by
    unfold dispatchWebhook
    rw [hfilter]
    simp only [Bool.false_eq_true, if_false]
  refine ⟨?_, ?_, ?_, ?_⟩
  · rw [hbranch]
    cases outcome <;> rfl
  · intro s hs
    subst hs
    rw [hbranch]
  · intro s b hb
    subst hb
    refine ⟨by rw [hbranch], ?_⟩
    show ((b.getD "Unknown error").data.take 500).length ≤ 500
    exact List.length_take_le 500 (b.getD "Unknown error").data
  · intro m hm
    subst hm
    rw [hbranch]

/-- Witness for C10 (amended): a timeout-style thrown error against an
unfiltered configuration. -/
theorem c10_witness :
    ((dispatchWebhook
        ⟨true, "https://example.invalid/hook", "s", 30, 300, 900, 600,
          1, 0, 1, 0, []⟩
        (createWebhookPayload .completed "k" "T" (some sampleTaskDone)
          none)
        (.thrown (some "fetch failed")) 12).1.duration = 12) ∧
    (∀ s, HttpOutcome.thrown (some "fetch failed") = .ok s →
      dispatchWebhook
        ⟨true, "https://example.invalid/hook", "s", 30, 300, 900, 600,
          1, 0, 1, 0, []⟩
        (createWebhookPayload .completed "k" "T" (some sampleTaskDone)
          none)
        (.thrown (some "fetch failed")) 12 =
        ({ success := true, statusCode := some s, duration := 12 },
          true)) ∧
    (∀ s b, HttpOutcome.thrown (some "fetch failed") = .httpError s b →
      dispatchWebhook
        ⟨true, "https://example.invalid/hook", "s", 30, 300, 900, 600,
          1, 0, 1, 0, []⟩
        (createWebhookPayload .completed "k" "T" (some sampleTaskDone)
          none)
        (.thrown (some "fetch failed")) 12 =
        ({ success := false, statusCode := some s
           error := some (jsSlice (b.getD "Unknown error") 500)
           duration := 12 }, true) ∧
      (jsSlice (b.getD "Unknown error") 500).length ≤ 500) ∧
    (∀ m, HttpOutcome.thrown (some "fetch failed") = .thrown m →
      dispatchWebhook
        ⟨true, "https://example.invalid/hook", "s", 30, 300, 900, 600,
          1, 0, 1, 0, []⟩
        (createWebhookPayload .completed "k" "T" (some sampleTaskDone)
          none)
        (.thrown (some "fetch failed")) 12 =
        ({ success := false, error := some (m.getD "Unknown error")
           duration := 12 }, true)) :=
  c10_dispatch_total_amended _ _ _ _ (Or.inl rfl)

/-! ## Claim C8 — behavior when the prior state cannot be loaded -/

/-- C8 counterexample: a cycle whose stored blob is present but
unparseable (`JSON.parse` fails, `getStoredState` returns `null`) is NOT
treated as an aborted cycle: it persists a fresh baseline state, so the
persisted subscriber state does not remain unchanged. -/
theorem c8_counterexample :
    (pollForUser "k" .corrupt [sampleTask] [] "T1").savedState ≠ none ∧
    (pollForUser "k" .corrupt [sampleTask] [] "T1").savedState =
      some ⟨"T1", [("t1", taskToStoredState "T1" sampleTask)]⟩ := by
  refine ⟨?_, rfl⟩
  intro h
  have h2 : (pollForUser "k" .corrupt [sampleTask] [] "T1").savedState =
      some ⟨"T1", [("t1", taskToStoredState "T1" sampleTask)]⟩ := rfl
  rw [h] at h2
  exact Option.noConfusion h2

/-- C8 (amended): a cycle whose store read throws is aborted — no events,
no state write, markers untouched. A cycle whose stored value exists but
cannot be parsed loads a `null` state and is handled as a first poll: it
emits no events and performs no diff, but persists the freshly built
snapshot map as a new baseline, replacing the prior blob rather than
leaving it unchanged. -/
theorem c8_store_failure_amended (apiKey now : String)
    (rawTasks : List Task) (markers0 : List (String × String)) :
    pollForUser apiKey .err rawTasks markers0 now =
      { dispatched := [], savedState := none, markers := markers0 } ∧
    pollForUser apiKey .corrupt rawTasks markers0 now =
      { dispatched := []
        savedState := some ⟨now, storeFold now [] (buildTaskMap rawTasks)⟩
        markers := markers0 } :=
  ⟨rfl, rfl⟩

/-! ## Claim C6 — mutation routes and self-origin markers -/

/-- C6 (code bug): the spec requires every task-mutating route handler to
record a Self-Origin Marker (`markApiChange`), but none of the nine
mutation routes in `routes/tasks.ts` performs a `markApiChangeCall`
effect — `markApiChange` is defined in `redis/client.ts` yet never
called, so echoes of API-originated mutations are never suppressed. -/
theorem c6_no_route_records_marker :
    ∀ id : String, ((taskMutationRoutes id).all
      (fun r => !(recordsMarker r.2))) = true := by
  intro id
  rfl

/-! ## Detector corollaries and a shared no-dispatch argument -/

theorem detect_none_of_hash_eq {o n : StoredTaskState}
    (h : o.hash = n.hash) : detectChanges (some o) (some n) = none := by
  simp [detectChanges, h]

theorem detect_both_event_ne_deleted {o n : StoredTaskState}
    {ch : DetectedChange}
    (h : detectChanges (some o) (some n) = some ch) :
    ch.event ≠ .deleted := by
  simp only [detectChanges] at h
  split_ifs at h <;> (injection h with h2; subst h2; simp)

/-- If every detected change for `tid` is impossible (`hblock`), the loop
dispatches no payload whose task id is `tid`. -/
theorem loop_no_payload_for_tid (apiKey now tid : String)
    (m : List (String × StoredTaskState)) (es : List (String × Task))
    (init : LoopState) (t : Task)
    (hid : ∀ e ∈ es, e.2._id = e.1) (hnd : (akeys es).Nodup)
    (hinit : init.dispatched = [])
    (hcur : alookup tid es = some t)
    (hblock : ∀ old ch, alookup tid m = some old →
      detectChanges (some old) (some (taskToStoredState now t)) =
        some ch → False) :
    ∀ p ∈ (es.foldl (processTask apiKey now m) init).dispatched,
      payloadTaskId p ≠ some tid := by
  intro p hp hpid
  rcases loop_dispatch_sound apiKey now m es init hp with
    h | ⟨e, he, old', ch, hold', hch', hpay⟩
  · rw [hinit] at h
    simp at h
  · rw [hpay, payloadTaskId_create] at hpid
    have hid2 : e.2._id = e.1 := hid e he
    have he1 : e.1 = tid := by
      rw [hid2] at hpid
      exact Option.some.inj hpid
    have hl : alookup e.1 es = some e.2 := alookup_of_mem_nodup hnd he
    rw [he1, hcur] at hl
    have het : e.2 = t := (Option.some.inj hl).symm
    rw [he1] at hold'
    rw [het] at hch'
    exact hblock old' ch hold' hch'

/-! ## Claim C2 — identical fingerprints: no event, snapshot hash kept -/

/-- C2: for a task whose prior snapshot and newly built snapshot have
identical fingerprint hashes, the detector returns no event, the cycle
dispatches no webhook for that task, and the snapshot stored for it after
the cycle still carries the same hash. -/
theorem c2_identical_fingerprint_no_event (apiKey now tid : String)
    (store : StoreRead) (rawTasks : List Task)
    (markers0 : List (String × String))
    (m : List (String × StoredTaskState)) (old : StoredTaskState) (t : Task)
    (hload : loadedTasks store = some m)
    (hold : alookup tid m = some old)
    (hcur : alookup tid (buildTaskMap rawTasks) = some t)
    (hhash : old.hash = (taskToStoredState now t).hash) :
    detectChanges (some old) (some (taskToStoredState now t)) = none ∧
    (∀ p ∈ (pollForUser apiKey store rawTasks markers0 now).dispatched,
      payloadTaskId p ≠ some tid) ∧
    (∃ s, (pollForUser apiKey store rawTasks markers0 now).savedState =
      some s ∧ alookup tid s.tasks = some (taskToStoredState now t) ∧
      (taskToStoredState now t).hash = old.hash) := by
  have hdet : detectChanges (some old) (some (taskToStoredState now t)) =
      none := detect_none_of_hash_eq hhash
  have hne : m.isEmpty = false := isEmpty_false_of_alookup hold
  have heq := pollForUser_loaded_nonempty apiKey now store rawTasks markers0
    m hload hne
  refine ⟨hdet, ?_, ?_⟩
  · rw [heq]
    refine loop_no_payload_for_tid apiKey now tid m (buildTaskMap rawTasks)
      _ t buildTaskMap_id buildTaskMap_nodup rfl hcur ?_
    intro old' ch hold' hch'
    rw [hold] at hold'
    rw [← Option.some.inj hold'] at hch'
    rw [hdet] at hch'
    exact Option.noConfusion hch'
  · rw [heq]
    refine ⟨_, rfl, ?_, hhash.symm⟩
    rw [loop_tasks_eq]
    exact storeFold_lookup_self buildTaskMap_nodup hcur _

/-- Witness for C2: `sampleTask` polled twice with an unchanged
fingerprint — no event detected, no payload for it, snapshot hash kept. -/
theorem c2_witness :
    detectChanges (some (taskToStoredState "T0" sampleTask))
      (some (taskToStoredState "T1" sampleTask)) = none ∧
    (∀ p ∈ (pollForUser "k"
        (.ok ⟨"T0", [("t1", taskToStoredState "T0" sampleTask)]⟩)
        [sampleTask] [] "T1").dispatched,
      payloadTaskId p ≠ some "t1") ∧
    (∃ s, (pollForUser "k"
        (.ok ⟨"T0", [("t1", taskToStoredState "T0" sampleTask)]⟩)
        [sampleTask] [] "T1").savedState =
      some s ∧ alookup "t1" s.tasks =
        some (taskToStoredState "T1" sampleTask) ∧
      (taskToStoredState "T1" sampleTask).hash =
        (taskToStoredState "T0" sampleTask).hash) :=
  c2_identical_fingerprint_no_event "k" "T1" "t1"
    (.ok ⟨"T0", [("t1", taskToStoredState "T0" sampleTask)]⟩)
    [sampleTask] [] [("t1", taskToStoredState "T0" sampleTask)]
    (taskToStoredState "T0" sampleTask) sampleTask rfl rfl rfl rfl

/-! ## Claim C3 — first-poll baseline; unseen tasks stored silently -/

/-- C3: a cycle whose loaded subscriber state has an empty task map stores
one baseline snapshot per observed task and dispatches nothing; on a later
cycle, a task with no prior snapshot has its snapshot stored but no event
is dispatched for it. -/
theorem c3_first_poll_and_unseen (apiKey now : String) (store : StoreRead)
    (rawTasks : List Task) (markers0 : List (String × String)) :
    (loadedTasks store = some [] →
      (pollForUser apiKey store rawTasks markers0 now).dispatched = [] ∧
      (∃ s, (pollForUser apiKey store rawTasks markers0 now).savedState =
        some s ∧
        s.tasks.length = (buildTaskMap rawTasks).length ∧
        (∀ tid t, alookup tid (buildTaskMap rawTasks) = some t →
          alookup tid s.tasks = some (taskToStoredState now t)))) ∧
    (∀ m tid t, loadedTasks store = some m → m.isEmpty = false →
      alookup tid (buildTaskMap rawTasks) = some t →
      alookup tid m = none →
      (∃ s, (pollForUser apiKey store rawTasks markers0 now).savedState =
        some s ∧ alookup tid s.tasks = some (taskToStoredState now t)) ∧
      (∀ p ∈ (pollForUser apiKey store rawTasks markers0 now).dispatched,
        payloadTaskId p ≠ some tid)) := by
  constructor
  · intro hload
    rw [pollForUser_loaded_empty apiKey now store rawTasks markers0 hload]
    refine ⟨rfl, _, rfl, ?_, ?_⟩
    · show (storeFold now [] (buildTaskMap rawTasks)).length =
        (buildTaskMap rawTasks).length
      have h : (storeFold now [] (buildTaskMap rawTasks)).length =
          ([] : List (String × StoredTaskState)).length +
            (buildTaskMap rawTasks).length :=
        storeFold_length buildTaskMap_nodup []
          (by intro e _ he; simp [akeys] at he)
      simpa using h
    · intro tid t hcur
      exact storeFold_lookup_self buildTaskMap_nodup hcur []
  · intro m tid t hload hne hcur hmiss
    have heq := pollForUser_loaded_nonempty apiKey now store rawTasks
      markers0 m hload hne
    constructor
    · rw [heq]
      refine ⟨_, rfl, ?_⟩
      rw [loop_tasks_eq]
      exact storeFold_lookup_self buildTaskMap_nodup hcur _
    · rw [heq]
      refine loop_no_payload_for_tid apiKey now tid m
        (buildTaskMap rawTasks) _ t buildTaskMap_id buildTaskMap_nodup rfl
        hcur ?_
      intro old' ch hold' _
      rw [hmiss] at hold'
      exact Option.noConfusion hold'

/-- Witness for C3: a first poll over two tasks stores two baselines with
no events; a later cycle observing unseen task `t2` stores it silently. -/
theorem c3_witness :
    ((loadedTasks (.ok ⟨"T0",
        [("t1", taskToStoredState "T0" sampleTask)]⟩) = some [] →
      (pollForUser "k"
        (.ok ⟨"T0", [("t1", taskToStoredState "T0" sampleTask)]⟩)
        [sampleTask, sampleTask2] [] "T1").dispatched = [] ∧
      (∃ s, (pollForUser "k"
        (.ok ⟨"T0", [("t1", taskToStoredState "T0" sampleTask)]⟩)
        [sampleTask, sampleTask2] [] "T1").savedState = some s ∧
        s.tasks.length =
          (buildTaskMap [sampleTask, sampleTask2]).length ∧
        (∀ tid t, alookup tid
            (buildTaskMap [sampleTask, sampleTask2]) = some t →
          alookup tid s.tasks = some (taskToStoredState "T1" t)))) ∧
    (∀ m tid t, loadedTasks (.ok ⟨"T0",
        [("t1", taskToStoredState "T0" sampleTask)]⟩) = some m →
      m.isEmpty = false →
      alookup tid (buildTaskMap [sampleTask, sampleTask2]) = some t →
      alookup tid m = none →
      (∃ s, (pollForUser "k"
        (.ok ⟨"T0", [("t1", taskToStoredState "T0" sampleTask)]⟩)
        [sampleTask, sampleTask2] [] "T1").savedState = some s ∧
        alookup tid s.tasks = some (taskToStoredState "T1" t)) ∧
      (∀ p ∈ (pollForUser "k"
          (.ok ⟨"T0", [("t1", taskToStoredState "T0" sampleTask)]⟩)
          [sampleTask, sampleTask2] [] "T1").dispatched,
        payloadTaskId p ≠ some tid))) :=
  c3_first_poll_and_unseen "k" "T1"
    (.ok ⟨"T0", [("t1", taskToStoredState "T0" sampleTask)]⟩)
    [sampleTask, sampleTask2] []

/-! ## Claim C4 — per-key merge; no deletions from absence -/

/-- C4: a poll cycle only adds or overwrites per-task entries — every task
id present in the loaded prior state is still present in the saved merged
state — and no `task.deleted` event is ever dispatched. -/
theorem c4_merge_never_evicts (apiKey now : String) (store : StoreRead)
    (rawTasks : List Task) (markers0 : List (String × String))
    (m : List (String × StoredTaskState))
    (hload : loadedTasks store = some m) :
    (∀ s, (pollForUser apiKey store rawTasks markers0 now).savedState =
        some s →
      ∀ tid, (alookup tid m).isSome → (alookup tid s.tasks).isSome) ∧
    (∀ p ∈ (pollForUser apiKey store rawTasks markers0 now).dispatched,
      p.event ≠ .deleted) := by
  by_cases hemp : m.isEmpty
  · have hm : m = [] := by
      cases m with
      | nil => rfl
      | cons a l => simp at hemp
    subst hm
    rw [pollForUser_loaded_empty apiKey now store rawTasks markers0 hload]
    constructor
    · intro s hs tid hsome
      simp [alookup] at hsome
    · intro p hp
      simp at hp
  · have hne : m.isEmpty = false := by
      cases h : m.isEmpty
      · rfl
      · exact absurd h hemp
    rw [pollForUser_loaded_nonempty apiKey now store rawTasks markers0 m
      hload hne]
    constructor
    · intro s hs tid hsome
      have : s = ⟨now, ((buildTaskMap rawTasks).foldl
          (processTask apiKey now m)
          { tasks := m, markers := markers0, dispatched := [] }).tasks⟩ :=
        (Option.some.inj hs).symm
      rw [this]
      show (alookup tid ((buildTaskMap rawTasks).foldl
        (processTask apiKey now m)
        { tasks := m, markers := markers0, dispatched := [] }).tasks).isSome
      rw [loop_tasks_eq]
      exact storeFold_lookup_isSome _ hsome
    · intro p hp
      rcases loop_dispatch_sound apiKey now m (buildTaskMap rawTasks) _ hp
        with h | ⟨e, _, old', ch, _, hch', hpay⟩
      · simp at h
      · rw [hpay]
        show ch.event ≠ .deleted
        exact detect_both_event_ne_deleted hch'

/-- Witness for C4: a cycle for a subscriber knowing `t1` that fetches
only `t2` keeps `t1` in the saved state and dispatches no deletion. -/
theorem c4_witness :
    ((∀ s, (pollForUser "k"
        (.ok ⟨"T0", [("t1", taskToStoredState "T0" sampleTask)]⟩)
        [sampleTask2] [] "T1").savedState = some s →
      ∀ tid, (alookup tid
          [("t1", taskToStoredState "T0" sampleTask)]).isSome →
        (alookup tid s.tasks).isSome) ∧
    (∀ p ∈ (pollForUser "k"
        (.ok ⟨"T0", [("t1", taskToStoredState "T0" sampleTask)]⟩)
        [sampleTask2] [] "T1").dispatched,
      p.event ≠ .deleted)) :=
  c4_merge_never_evicts "k" "T1"
    (.ok ⟨"T0", [("t1", taskToStoredState "T0" sampleTask)]⟩)
    [sampleTask2] [] [("t1", taskToStoredState "T0" sampleTask)] rfl

/-! ## Claim C5 — self-origin marker suppresses exactly one change -/

/-- C5: when a self-origin marker exists for `(subscriber, tid)` and a
change for that task is detected, the webhook is suppressed, the marker is
deleted by that consultation, and the snapshot is still updated; a later
independent change for the same pair, run against the marker store this
cycle left behind, is dispatched normally. -/
theorem c5_self_origin_single_use (apiKey now tid ev : String)
    (store : StoreRead) (rawTasks : List Task)
    (markers0 : List (String × String))
    (m : List (String × StoredTaskState)) (old : StoredTaskState)
    (t : Task) (ch : DetectedChange)
    (hload : loadedTasks store = some m)
    (hmk : alookup tid markers0 = some ev)
    (hold : alookup tid m = some old)
    (hcur : alookup tid (buildTaskMap rawTasks) = some t)
    (hch : detectChanges (some old) (some (taskToStoredState now t)) =
      some ch) :
    (∀ p ∈ (pollForUser apiKey store rawTasks markers0 now).dispatched,
      payloadTaskId p ≠ some tid) ∧
    alookup tid (pollForUser apiKey store rawTasks markers0 now).markers =
      none ∧
    (∃ s, (pollForUser apiKey store rawTasks markers0 now).savedState =
      some s ∧ alookup tid s.tasks = some (taskToStoredState now t)) ∧
    (∀ (store2 : StoreRead) (m2 : List (String × StoredTaskState))
        (rawTasks2 : List Task) (now2 : String) (old2 : StoredTaskState)
        (t2 : Task) (ch2 : DetectedChange),
      loadedTasks store2 = some m2 →
      alookup tid m2 = some old2 →
      alookup tid (buildTaskMap rawTasks2) = some t2 →
      detectChanges (some old2) (some (taskToStoredState now2 t2)) =
        some ch2 →
      createWebhookPayload ch2.event apiKey now2 (some t2) ch2.changes ∈
        (pollForUser apiKey store2 rawTasks2
          (pollForUser apiKey store rawTasks markers0 now).markers
          now2).dispatched) := by
  have hne : m.isEmpty = false := isEmpty_false_of_alookup hold
  have heq := pollForUser_loaded_nonempty apiKey now store rawTasks markers0
    m hload hne
  have hmarker : alookup tid
      (pollForUser apiKey store rawTasks markers0 now).markers = none := by
    rw [heq]
    exact loop_markers_consumed apiKey now m (buildTaskMap rawTasks) hold
      hch _ hcur
  refine ⟨?_, hmarker, ?_, ?_⟩
  · rw [heq]
    intro p hp
    rcases loop_no_dispatch_of_marker apiKey now m (buildTaskMap rawTasks)
      buildTaskMap_id buildTaskMap_nodup _ hmk hp with h | h
    · simp at h
    · exact h
  · rw [heq]
    refine ⟨_, rfl, ?_⟩
    rw [loop_tasks_eq]
    exact storeFold_lookup_self buildTaskMap_nodup hcur _
  · intro store2 m2 rawTasks2 now2 old2 t2 ch2 hload2 hold2 hcur2 hch2
    have hne2 : m2.isEmpty = false := isEmpty_false_of_alookup hold2
    rw [pollForUser_loaded_nonempty apiKey now2 store2 rawTasks2
      (pollForUser apiKey store rawTasks markers0 now).markers m2 hload2
      hne2]
    exact loop_dispatch_complete apiKey now2 m2 (buildTaskMap rawTasks2)
      hold2 hch2 _ hcur2 hmarker

/-- Witness for C5: a completion change for `t1` with a fresh
`task.completed` marker is suppressed once, the marker is consumed, and a
later change dispatches. -/
theorem c5_witness :
    ((∀ p ∈ (pollForUser "k"
        (.ok ⟨"T0", [("t1", taskToStoredState "T0" sampleTask)]⟩)
        [sampleTaskDone] [("t1", "task.completed")] "T1").dispatched,
      payloadTaskId p ≠ some "t1") ∧
    alookup "t1" (pollForUser "k"
        (.ok ⟨"T0", [("t1", taskToStoredState "T0" sampleTask)]⟩)
        [sampleTaskDone] [("t1", "task.completed")] "T1").markers = none ∧
    (∃ s, (pollForUser "k"
        (.ok ⟨"T0", [("t1", taskToStoredState "T0" sampleTask)]⟩)
        [sampleTaskDone] [("t1", "task.completed")] "T1").savedState =
      some s ∧ alookup "t1" s.tasks =
        some (taskToStoredState "T1" sampleTaskDone)) ∧
    (∀ (store2 : StoreRead) (m2 : List (String × StoredTaskState))
        (rawTasks2 : List Task) (now2 : String) (old2 : StoredTaskState)
        (t2 : Task) (ch2 : DetectedChange),
      loadedTasks store2 = some m2 →
      alookup "t1" m2 = some old2 →
      alookup "t1" (buildTaskMap rawTasks2) = some t2 →
      detectChanges (some old2) (some (taskToStoredState now2 t2)) =
        some ch2 →
      createWebhookPayload ch2.event "k" now2 (some t2) ch2.changes ∈
        (pollForUser "k" store2 rawTasks2
          (pollForUser "k"
            (.ok ⟨"T0", [("t1", taskToStoredState "T0" sampleTask)]⟩)
            [sampleTaskDone] [("t1", "task.completed")] "T1").markers
          now2).dispatched)) :=
  c5_self_origin_single_use "k" "T1" "t1" "task.completed"
    (.ok ⟨"T0", [("t1", taskToStoredState "T0" sampleTask)]⟩)
    [sampleTaskDone] [("t1", "task.completed")]
    [("t1", taskToStoredState "T0" sampleTask)]
    (taskToStoredState "T0" sampleTask) sampleTaskDone
    ⟨.completed, none⟩ rfl rfl rfl rfl (by decide)

end Sunsama
